import Mathlib

/-!
Verification of the plugin-system tool-loop workflow
(`src/langgraph-agent/9_plugin_system_for_tools.js`) against its
natural-language specification.

The plugin registry (`PluginSystem`), the route function
(`routeFromAgent`), the graph wiring (`buildGraph`) and the prompt
rendering are shallowly embedded from the JavaScript source.  The
graph-execution engine itself (`StateGraph.compile` / `invoke`) and the
`MessagesAnnotation` reducer live in the external `@langchain/langgraph`
package, not in this repository; the few pieces of their behaviour that
the properties below need (the conditional-edge resolution step and the
channel merge) are modelled from the specification and are marked as
such in their doc comments.

JavaScript `Map`s are embedded as association lists with replace-in-place
update (a `Map.set` on an existing key keeps the entry's position, which
is what gives "registration order" its meaning).  Tool handles are opaque
(`α`).
-/

namespace PluginDemo

/-! ## Messages -/

/-- Message role tags: `SystemMessage` / `HumanMessage` / `AIMessage` /
tool-result messages of the LangChain message classes. -/
inductive Role where
  | system
  | human
  | assistant
  | tool
deriving DecidableEq

/-- One entry of an assistant message's `tool_calls` array. -/
structure ToolCall where
  id : String
  name : String
  args : String
deriving DecidableEq

/-- A conversational message: role tag, text content, tool-call requests
(empty for non-requesting turns) and the correlation id set on tool-role
results. -/
structure Message where
  role : Role
  content : String
  toolCalls : List ToolCall := []
  toolCallId : Option String := none
deriving DecidableEq

/-- True exactly on `AIMessage`s, i.e. the `m instanceof AIMessage`
checks of the source. -/
def Message.isAssistant (m : Message) : Bool :=
  match m.role with
  | Role.assistant => true
  | _ => false

/-! ## Association-list maps (JavaScript `Map` semantics) -/

/-- `Map.has`. -/
def hasKey {β : Type} (l : List (String × β)) (k : String) : Bool :=
  l.any (fun kv => kv.1 == k)

/-- `Map.set`: overwrite in place when the key is present (keeping its
position in iteration order), append otherwise. -/
def setKey {β : Type} (l : List (String × β)) (k : String) (v : β) :
    List (String × β) :=
  if hasKey l k then
    l.map (fun kv => if kv.1 == k then (k, v) else kv)
  else
    l ++ [(k, v)]

/-- `Map.delete`. -/
def delKey {β : Type} (l : List (String × β)) (k : String) :
    List (String × β) :=
  l.filter (fun kv => !(kv.1 == k))

/-! ## The plugin registry (`class PluginSystem`) -/

/-- The value stored in `this.plugins` for one plugin:
`{tool, description, enabled}`. -/
structure PluginInfo (α : Type) where
  tool : α
  description : String
  enabled : Bool
deriving DecidableEq

/-- `new ToolNode([plugin])`: the derived tool node wraps the single
tool handle. -/
structure ToolNode (α : Type) where
  tools : List α
deriving DecidableEq

/-- The mutable state of a `PluginSystem` instance: the `plugins` map
and the parallel `toolNodes` map. -/
structure PluginSystem (α : Type) where
  plugins : List (String × PluginInfo α)
  toolNodes : List (String × ToolNode α)
deriving DecidableEq

/-- The freshly constructed registry. -/
def PluginSystem.empty (α : Type) : PluginSystem α := ⟨[], []⟩

/-- Entry shape returned by `getEnabledPlugins`:
`{name, tool, description}`. -/
structure EnabledPlugin (α : Type) where
  name : String
  tool : α
  description : String
deriving DecidableEq

/-- `registerPlugin(name, plugin, description)`.  The returned flag
records whether the `console.warn` for an already-registered name fired;
the entry is (over)written with `enabled: true` and a `ToolNode` wrapping
the plugin is stored under the same name. -/
def registerPlugin {α : Type} (ps : PluginSystem α) (name : String)
    (plugin : α) (description : String) : PluginSystem α × Bool :=
  let warned := hasKey ps.plugins name
  ({ plugins := setKey ps.plugins name ⟨plugin, description, true⟩,
     toolNodes := setKey ps.toolNodes name ⟨[plugin]⟩ }, warned)

/-- `unregisterPlugin(name)`: delete from both maps, returning whether
anything was removed. -/
def unregisterPlugin {α : Type} (ps : PluginSystem α) (name : String) :
    PluginSystem α × Bool :=
  if hasKey ps.plugins name then
    ({ plugins := delKey ps.plugins name,
       toolNodes := delKey ps.toolNodes name }, true)
  else
    (ps, false)

/-- `setPluginEnabled(name, enabled)`: update the entry's `enabled` flag
in place; return `false` (and change nothing) for unknown names. -/
def setPluginEnabled {α : Type} (ps : PluginSystem α) (name : String)
    (enabled : Bool) : PluginSystem α × Bool :=
  if hasKey ps.plugins name then
    ({ ps with
       plugins := ps.plugins.map (fun kv =>
         if kv.1 == name then (kv.1, { kv.2 with enabled := enabled })
         else kv) }, true)
  else
    (ps, false)

/-- `getEnabledPlugins()`: the enabled entries, in map iteration order,
as `{name, tool, description}` records. -/
def getEnabledPlugins {α : Type} (ps : PluginSystem α) :
    List (EnabledPlugin α) :=
  (ps.plugins.filter (fun kv => kv.2.enabled)).map
    (fun kv => ⟨kv.1, kv.2.tool, kv.2.description⟩)

/-- `getEnabledTools()`. -/
def getEnabledTools {α : Type} (ps : PluginSystem α) : List α :=
  (getEnabledPlugins ps).map (fun p => p.tool)

/-- `getEnabledToolNodes()`: the `toolNodes` entries whose plugin is
present and enabled (`this.plugins.get(name)?.enabled`). -/
def getEnabledToolNodes {α : Type} (ps : PluginSystem α) :
    List (String × ToolNode α) :=
  ps.toolNodes.filter (fun kv =>
    match List.lookup kv.1 ps.plugins with
    | some info => info.enabled
    | none => false)

/-! ## Routing (`routeFromAgent`) -/

/-- The fall-through tail of `routeFromAgent`: count `AIMessage`s, warn
above the hardcoded threshold of 10, and return `"__end__"` either way
(both branches of the source return `"__end__"`). -/
def routeFromAgentEnd (messages : List Message) : String :=
  let responseCount := (messages.filter (fun m => m.isAssistant)).length
  if responseCount > 10 then "__end__" else "__end__"

/-- `routeFromAgent({messages})`: when the last message is an
`AIMessage` with a non-empty `tool_calls` array whose first entry names
an enabled plugin, return that name; otherwise fall through to the
turn-count check and return `"__end__"`. -/
def routeFromAgent {α : Type} (ps : PluginSystem α)
    (messages : List Message) : String :=
  match messages.getLast? with
  | some lastMessage =>
    match lastMessage.role, lastMessage.toolCalls with
    | Role.assistant, toolCall :: _ =>
      if (getEnabledPlugins ps).any (fun p => p.name == toolCall.name) then
        toolCall.name
      else
        routeFromAgentEnd messages
    | _, _ => routeFromAgentEnd messages
  | none => routeFromAgentEnd messages

/-! ## The tool-loop graph (`buildGraph`) -/

/-- The topology data of the compiled tool-loop graph: node names, the
unconditional edges, the single conditional edge out of `"agent"` with
its target map and (absent) default, and the recursion limit passed to
`compile`. -/
structure Graph where
  nodes : List String
  edges : List (String × String)
  condSource : String
  condTargetMap : List (String × String)
  condDefault : Option String
  recursionLimit : Nat
deriving DecidableEq

/-- `buildGraph()`: one `"agent"` node plus a node per enabled tool
node; `__start__ → agent`; conditional edges from `"agent"` with target
map `{__end__: "__end__", ...name: name}` and no default; an edge
`name → "agent"` for every tool node; compiled with
`recursionLimit: 100`. -/
def buildGraph {α : Type} (ps : PluginSystem α) : Graph :=
  let toolNodes := getEnabledToolNodes ps
  { nodes := "agent" :: toolNodes.map (fun kv => kv.1),
    edges := ("__start__", "agent") ::
      toolNodes.map (fun kv => (kv.1, "agent")),
    condSource := "agent",
    condTargetMap := ("__end__", "__end__") ::
      toolNodes.map (fun kv => (kv.1, kv.1)),
    condDefault := none,
    recursionLimit := 100 }

/-- Routing failures of the engine's conditional-edge step. -/
inductive RouteError where
  | routingKeyError (node : String) (key : String)
deriving DecidableEq

/-- Modelled from the spec: the Executor's conditional-edge resolution
(§4.2) — the engine (`@langchain/langgraph`'s compiled-graph `invoke`)
is not part of this repository's sources.  The key returned by the route
function must be in `targetMap` or equal to a configured
`defaultTarget`; otherwise the step fails with
`RoutingKeyError{node, key}`. -/
def resolveConditional (g : Graph) (key : String) :
    Except RouteError String :=
  match List.lookup key g.condTargetMap with
  | some target => Except.ok target
  | none =>
    match g.condDefault with
    | some d => Except.ok d
    | none => Except.error (RouteError.routingKeyError g.condSource key)

/-- The first routing step after the agent node of the tool-loop graph:
the engine resolves the conditional edge on the key returned by
`routeFromAgent`. -/
def resolveFromAgent {α : Type} (ps : PluginSystem α) (g : Graph)
    (messages : List Message) : Except RouteError String :=
  resolveConditional g (routeFromAgent ps messages)

/-- The registry invariant every state reachable through the
`PluginSystem` API satisfies: `plugins` and `toolNodes` hold exactly the
same names, without duplicates. -/
def wellFormed {α : Type} (ps : PluginSystem α) : Prop :=
  ps.plugins.map Prod.fst = ps.toolNodes.map Prod.fst ∧
    (ps.plugins.map Prod.fst).Nodup

instance {α : Type} (ps : PluginSystem α) : Decidable (wellFormed ps) :=
  inferInstanceAs (Decidable (_ ∧ _))

/-! ## State and reducer -/

/-- The run state: the `messages` channel plus the remaining scalar
channels. -/
structure RunState where
  messages : List Message
  channels : List (String × String)
deriving DecidableEq

/-- A node's returned update of the run state. -/
structure StateUpdate where
  messages : List Message
  channels : List (String × String)
deriving DecidableEq

/-- Modelled from the spec: the Reducer `merge(state, partial)` (§4.3) —
the `MessagesAnnotation` reducer lives in the external
`@langchain/langgraph` package.  The `messages` channel is a strict
append; any other channel present in the update overwrites the state's
value. -/
def merge (s : RunState) (p : StateUpdate) : RunState :=
  { messages := s.messages ++ p.messages,
    channels := p.channels.foldl (fun acc kv => setKey acc kv.1 kv.2)
      s.channels }

/-! ## Prompt rendering -/

/-- JavaScript `Array.prototype.join(sep)`. -/
def jsJoin (sep : String) : List String → String
  | [] => ""
  | x :: xs => xs.foldl (fun acc y => acc ++ sep ++ y) x

/-- The dollar character, code 36. -/
def dollarChar : Char := Char.ofNat 36

/-- The ampersand character, code 38. -/
def ampChar : Char := Char.ofNat 38

/-- The backquote character, code 96. -/
def backquoteChar : Char := Char.ofNat 96

/-- The single-quote character, code 39. -/
def quoteChar : Char := Char.ofNat 39

/-- ECMAScript `GetSubstitution` for a string search (no capture
groups): scan the replacement; a doubled dollar yields one dollar,
dollar-ampersand the matched text, dollar-backquote the text before the
match, dollar-quote the text after the match; any other dollar
(including a trailing one) is literal.  A non-dollar character after a
literal dollar can never itself start a pattern, so the scan emits both
and continues. -/
def getSubstitution (matched before after : List Char) :
    List Char → List Char
  | [] => []
  | c :: rest =>
    if c == dollarChar then
      match rest with
      | [] => [c]
      | d :: rest2 =>
        if d == dollarChar then
          dollarChar :: getSubstitution matched before after rest2
        else if d == ampChar then
          matched ++ getSubstitution matched before after rest2
        else if d == backquoteChar then
          before ++ getSubstitution matched before after rest2
        else if d == quoteChar then
          after ++ getSubstitution matched before after rest2
        else
          c :: d :: getSubstitution matched before after rest2
    else
      c :: getSubstitution matched before after rest

/-- Whether a character can follow a dollar to form one of the
substitution patterns `getSubstitution` rewrites. -/
def isDollarSpecial (d : Char) : Bool :=
  d == dollarChar || d == ampChar || d == backquoteChar || d == quoteChar

/-- Whether the replacement contains one of the two-character
dollar-patterns, i.e. whether `getSubstitution` rewrites anything. -/
def hasDollarPattern : List Char → Bool
  | c :: d :: rest =>
    (c == dollarChar && isDollarSpecial d) || hasDollarPattern (d :: rest)
  | _ => false

/-- First-occurrence split: `some (before, after)` with
`s = before ++ pat ++ after` at the first match of `pat`, `none` when
`pat` does not occur in `s`. -/
def findFirst (pat : List Char) :
    List Char → Option (List Char × List Char)
  | [] => if pat.isEmpty then some ([], []) else none
  | c :: rest =>
    if pat.isPrefixOf (c :: rest) then
      some ([], (c :: rest).drop pat.length)
    else
      match findFirst pat rest with
      | some (before, after) => some (c :: before, after)
      | none => none

/-- JavaScript `String.prototype.replace` with a string pattern: find
the first occurrence, return the string unchanged when the pattern is
absent, otherwise splice in the replacement after `GetSubstitution`
processing. -/
def jsReplaceFirst (s pat repl : String) : String :=
  match findFirst pat.data s.data with
  | some (before, after) =>
    ⟨before ++ (getSubstitution pat.data before after repl.data ++ after)⟩
  | none => s

/-- `buildToolDescriptions()`: one `- name: description` line per
enabled plugin, joined by newline. -/
def buildToolDescriptions {α : Type} (ps : PluginSystem α) : String :=
  jsJoin "\n" ((getEnabledPlugins ps).map
    (fun plugin => "- " ++ plugin.name ++ ": " ++ plugin.description))

/-- `getUpdatedSystemPrompt()` for a given `this.systemPrompt`. -/
def getUpdatedSystemPrompt {α : Type} (ps : PluginSystem α)
    (systemPrompt : String) : String :=
  jsReplaceFirst systemPrompt "\x7btool_descriptions\x7d"
    (buildToolDescriptions ps)

/-- `getDefaultSystemPrompt()`. -/
def getDefaultSystemPrompt : String :=
  "You are a helpful AI assistant that can use various tools to help the user.\nYou have access to the following tools:\n\x7btool_descriptions\x7d\n\nAlways use tools when they can help answer the user's question better.\nAfter using a tool, analyze the result and determine if you need another tool or can provide the final answer.\nBe concise and helpful in your responses."

/-- The decision `routeFromAgent` bases its tool branch on: the last
message is an `AIMessage` whose non-empty `tool_calls` array has a first
entry naming an enabled plugin. -/
def lastHasEnabledToolCall {α : Type} (ps : PluginSystem α)
    (messages : List Message) : Bool :=
  match messages.getLast? with
  | some lastMessage =>
    match lastMessage.role, lastMessage.toolCalls with
    | Role.assistant, toolCall :: _ =>
      (getEnabledPlugins ps).any (fun p => p.name == toolCall.name)
    | _, _ => false
  | none => false

/-- Modelled from the spec: the tool-description text as §6 words it —
`- \x7bname\x7d: \x7bdescription\x7d` lines, one per enabled plugin,
joined by a single newline.  Stated separately from the source-derived
`buildToolDescriptions` so the two renderings can be compared. -/
def specToolDescriptionText {α : Type} (ps : PluginSystem α) : String :=
  String.intercalate "\n" ((getEnabledPlugins ps).map
    (fun plugin => "- " ++ plugin.name ++ ": " ++ plugin.description))

/-- Text of the default system prompt before the placeholder. -/
def defaultPromptPre : String :=
  "You are a helpful AI assistant that can use various tools to help the user.\nYou have access to the following tools:\n"

/-- Text of the default system prompt after the placeholder. -/
def defaultPromptPost : String :=
  "\n\nAlways use tools when they can help answer the user's question better.\nAfter using a tool, analyze the result and determine if you need another tool or can provide the final answer.\nBe concise and helpful in your responses."

/-- Scanner hypothesis for first-occurrence replacement: the pattern
never matches while the scan is still inside the first list (with `tail`
the rest of the text). -/
def noHitBefore (pat tail : List Char) : List Char → Bool
  | [] => true
  | c :: rest => !(pat.isPrefixOf (c :: (rest ++ tail))) &&
      noHitBefore pat tail rest

/-! ## Concrete fixtures -/

/-- The empty registry over `Nat` tool handles. -/
def exEmpty : PluginSystem Nat := PluginSystem.empty Nat

/-- A registry with the single enabled plugin `search`. -/
def exSearch : PluginSystem Nat :=
  (registerPlugin exEmpty "search" 1 "Search the web for current information").1

/-- A human message. -/
def exHuman : Message := ⟨Role.human, "hi", [], none⟩

/-- An assistant message requesting the unregistered tool `bogus`. -/
def exBogusCall : Message :=
  ⟨Role.assistant, "", [⟨"call_1", "bogus", ""⟩], none⟩

/-- A transcript ending in a request for the unregistered tool. -/
def exMsgsBogus : List Message := [exHuman, exBogusCall]

/-- An assistant message whose first tool call names the unregistered
`bogus` and whose second names the enabled `search`. -/
def exTwoCalls : Message :=
  ⟨Role.assistant, "", [⟨"call_1", "bogus", ""⟩, ⟨"call_2", "search", ""⟩],
    none⟩

/-- A transcript ending in `exTwoCalls`. -/
def exMsgsTwoCalls : List Message := [exHuman, exTwoCalls]

/-- An assistant message requesting the enabled tool `search`. -/
def exSearchCall : Message :=
  ⟨Role.assistant, "", [⟨"call_1", "search", ""⟩], none⟩

/-- A transcript ending in `exSearchCall`. -/
def exMsgsSearch : List Message := [exHuman, exSearchCall]

/-- A transcript with twelve assistant messages (beyond the loop
threshold of 10) whose last message requests the enabled tool. -/
def exMsgsMany : List Message :=
  List.replicate 11 ⟨Role.assistant, "working", [], none⟩ ++ [exSearchCall]

/-- A registry whose single enabled plugin has a description containing
the doubled-dollar substitution pattern. -/
def exDollar : PluginSystem Nat :=
  (registerPlugin exEmpty "search" 1 "costs $$ per call").1

/-! ## Association-list lemmas -/

theorem beq_comm_false {k kp : String} (h : (kp == k) = false) :
    (k == kp) = false := by
  rw [beq_eq_false_iff_ne] at h ⊢
  exact fun hc => h hc.symm

theorem lookup_eq_none_of_hasKey_false {β : Type} :
    ∀ (l : List (String × β)) (k : String),
      hasKey l k = false → List.lookup k l = none := by
  intro l k
  induction l with
  | nil => intro _; rfl
  | cons kv rest ih =>
    obtain ⟨a, b⟩ := kv
    intro h
    simp only [hasKey, List.any_cons, Bool.or_eq_false_iff] at h
    simp only [List.lookup, beq_comm_false h.1]
    exact ih h.2

theorem lookup_of_mem_of_nodup {β : Type} :
    ∀ (l : List (String × β)) (k : String) (v : β),
      (k, v) ∈ l → (l.map Prod.fst).Nodup → List.lookup k l = some v := by
  intro l k v
  induction l with
  | nil => intro hmem _; cases hmem
  | cons kv rest ih =>
    obtain ⟨a, b⟩ := kv
    intro hmem hnd
    simp only [List.map_cons, List.nodup_cons] at hnd
    rcases List.mem_cons.mp hmem with heq | htail
    · obtain ⟨hk, hv⟩ := Prod.mk.injEq .. ▸ heq
      subst hk hv
      simp [List.lookup]
    · have hk : k ∈ rest.map Prod.fst :=
        List.mem_map.mpr ⟨(k, v), htail, rfl⟩
      have hne : (k == a) = false :=
        beq_eq_false_iff_ne.mpr (fun hc => hnd.1 (hc ▸ hk))
      simp only [List.lookup, hne]
      exact ih htail hnd.2

theorem lookup_map_set_of_hasKey {β : Type} (k : String) (v : β) :
    ∀ (l : List (String × β)), hasKey l k = true →
      List.lookup k (l.map (fun kv => if kv.1 == k then (k, v) else kv)) =
        some v := by
  intro l
  induction l with
  | nil => intro h; simp [hasKey] at h
  | cons kv rest ih =>
    obtain ⟨a, b⟩ := kv
    intro h
    simp only [hasKey, List.any_cons, Bool.or_eq_true] at h
    by_cases hk : (a == k) = true
    · have ha : a = k := beq_iff_eq.mp hk
      subst ha
      simp only [List.map_cons]
      rw [if_pos (beq_self_eq_true a)]
      simp [List.lookup]
    · have hkf : (a == k) = false := by
        rw [← Bool.not_eq_true]; exact hk
      rcases h with h | h
      · exact absurd h hk
      · simp only [List.map_cons]
        rw [if_neg (by simp [hkf])]
        simp only [List.lookup, beq_comm_false hkf]
        exact ih h

theorem lookup_append_single_of_hasKey_false {β : Type} (k : String)
    (v : β) :
    ∀ (l : List (String × β)), hasKey l k = false →
      List.lookup k (l ++ [(k, v)]) = some v := by
  intro l
  induction l with
  | nil => intro _; simp [List.lookup]
  | cons kv rest ih =>
    obtain ⟨a, b⟩ := kv
    intro h
    simp only [hasKey, List.any_cons, Bool.or_eq_false_iff] at h
    simp only [List.cons_append, List.lookup, beq_comm_false h.1]
    exact ih h.2

theorem lookup_setKey_self {β : Type} (l : List (String × β)) (k : String)
    (v : β) : List.lookup k (setKey l k v) = some v := by
  unfold setKey
  by_cases h : hasKey l k = true
  · rw [if_pos h]
    exact lookup_map_set_of_hasKey k v l h
  · rw [if_neg h]
    rw [Bool.not_eq_true] at h
    exact lookup_append_single_of_hasKey_false k v l h

theorem hasKey_of_lookup_some {β : Type} :
    ∀ (l : List (String × β)) (k : String) (v : β),
      List.lookup k l = some v → hasKey l k = true := by
  intro l k v
  induction l with
  | nil => intro h; simp [List.lookup] at h
  | cons kv rest ih =>
    obtain ⟨a, b⟩ := kv
    intro h
    by_cases hb : (k == a) = true
    · simp only [hasKey, List.any_cons, Bool.or_eq_true]
      exact Or.inl (by rw [beq_iff_eq] at hb ⊢; exact hb.symm)
    · have hbf : (k == a) = false := by
        rw [← Bool.not_eq_true]; exact hb
      simp only [List.lookup, hbf] at h
      simp only [hasKey, List.any_cons, Bool.or_eq_true]
      exact Or.inr (ih h)

theorem hasKey_setKey_self {β : Type} (l : List (String × β)) (k : String)
    (v : β) : hasKey (setKey l k v) k = true :=
  hasKey_of_lookup_some _ k v (lookup_setKey_self l k v)

theorem map_setFn_of_hasKey_false {β : Type} (k : String) (v : β) :
    ∀ (l : List (String × β)), hasKey l k = false →
      l.map (fun kv => if kv.1 == k then (k, v) else kv) = l := by
  intro l
  induction l with
  | nil => intro _; rfl
  | cons kv rest ih =>
    obtain ⟨a, b⟩ := kv
    intro h
    simp only [hasKey, List.any_cons, Bool.or_eq_false_iff] at h
    simp only [List.map_cons, h.1, Bool.false_eq_true, if_false]
    rw [ih h.2]

theorem setKey_setKey {β : Type} (l : List (String × β)) (k : String)
    (v : β) : setKey (setKey l k v) k v = setKey l k v := by
  have hk := hasKey_setKey_self l k v
  conv_lhs => rw [setKey, if_pos hk]
  unfold setKey
  by_cases h : hasKey l k = true
  · rw [if_pos h, List.map_map]
    apply List.map_congr_left
    intro kv _
    obtain ⟨a, b⟩ := kv
    by_cases hab : (a == k) = true
    · simp [Function.comp, hab]
    · have habf : (a == k) = false := by
        rw [← Bool.not_eq_true]; exact hab
      simp [Function.comp, habf]
  · rw [if_neg h, List.map_append]
    rw [Bool.not_eq_true] at h
    rw [map_setFn_of_hasKey_false k v l h]
    simp

/-! ## Routing lemmas -/

theorem routeFromAgentEnd_eq (messages : List Message) :
    routeFromAgentEnd messages = "__end__" := by
  simp [routeFromAgentEnd]

theorem routeFromAgent_cases {α : Type} (ps : PluginSystem α)
    (messages : List Message) :
    routeFromAgent ps messages = "__end__" ∨
      ((getEnabledPlugins ps).any
        (fun p => p.name == routeFromAgent ps messages)) = true := by
  unfold routeFromAgent
  cases hL : messages.getLast? with
  | none => exact Or.inl (routeFromAgentEnd_eq messages)
  | some m =>
    obtain ⟨role, content, tcs, tcid⟩ := m
    cases role <;> cases tcs <;>
      try exact Or.inl (routeFromAgentEnd_eq messages)
    next tc rest =>
      by_cases hany :
          ((getEnabledPlugins ps).any (fun p => p.name == tc.name)) = true
      · right
        simp [hany]
      · left
        simp [hany, routeFromAgentEnd_eq]

theorem enabledName_mem_toolNodes {α : Type} {ps : PluginSystem α}
    {n : String} (hwf : wellFormed ps)
    (hany : ((getEnabledPlugins ps).any (fun p => p.name == n)) = true) :
    n ∈ (getEnabledToolNodes ps).map Prod.fst := by
  obtain ⟨hkeys, hnd⟩ := hwf
  rw [List.any_eq_true] at hany
  obtain ⟨p, hp, hpn⟩ := hany
  have hn : p.name = n := beq_iff_eq.mp hpn
  unfold getEnabledPlugins at hp
  rw [List.mem_map] at hp
  obtain ⟨kv, hkvmem, hkveq⟩ := hp
  rw [List.mem_filter] at hkvmem
  obtain ⟨hkvl, hkven⟩ := hkvmem
  have hkv1 : kv.1 = n := by rw [← hn, ← hkveq]
  have hlook : List.lookup n ps.plugins = some kv.2 := by
    apply lookup_of_mem_of_nodup
    · rw [← hkv1]
      exact hkvl
    · exact hnd
  have hmemkeys : n ∈ ps.toolNodes.map Prod.fst := by
    rw [← hkeys]
    exact List.mem_map.mpr ⟨kv, hkvl, hkv1⟩
  rw [List.mem_map] at hmemkeys
  obtain ⟨tn, htn, htn1⟩ := hmemkeys
  apply List.mem_map.mpr
  refine ⟨tn, ?_, htn1⟩
  unfold getEnabledToolNodes
  rw [List.mem_filter]
  refine ⟨htn, ?_⟩
  rw [htn1, hlook]
  exact hkven

theorem lookup_selfmap_of_mem {β : Type} :
    ∀ (l : List (String × β)) (n : String), n ∈ l.map Prod.fst →
      List.lookup n (l.map (fun kv => (kv.1, kv.1))) = some n := by
  intro l n h
  induction l with
  | nil => simp at h
  | cons kv rest ih =>
    obtain ⟨a, b⟩ := kv
    simp only [List.map_cons, List.mem_cons] at h
    by_cases hna : n = a
    · subst hna
      simp [List.lookup]
    · have hb : (n == a) = false := beq_eq_false_iff_ne.mpr hna
      simp only [List.map_cons, List.lookup, hb]
      rcases h with h | h
      · exact absurd h hna
      · exact ih h

/-! ## C1: routing an unregistered tool name -/

/-- C1 (counterexample): with only `search` registered, a run whose
agent output requests the unregistered tool `bogus` does not fail with
`RoutingKeyError` on the first routing step after the agent node:
`routeFromAgent` maps the unknown name to `"__end__"`, a key the
conditional edge's target map contains, so the step resolves
successfully. -/
theorem c1_route_unknown_tool_counterexample :
    hasKey exSearch.plugins "bogus" = false ∧
    exMsgsBogus.getLast? = some exBogusCall ∧
    exBogusCall.toolCalls.map ToolCall.name = ["bogus"] ∧
    routeFromAgent exSearch exMsgsBogus = "__end__" ∧
    resolveFromAgent exSearch (buildGraph exSearch) exMsgsBogus =
      Except.ok "__end__" :=
  ⟨by decide, by decide, by decide, by decide, rfl⟩

/-- C1 (amended): for every well-formed registry and every transcript,
the key returned by `routeFromAgent` is resolvable in the tool-loop
graph's conditional-edge target map — an unregistered tool name is
mapped to the terminal key `"__end__"` — so the routing step after the
agent node always succeeds and `RoutingKeyError` is never raised. -/
theorem c1_routing_total {α : Type} (ps : PluginSystem α)
    (messages : List Message) (hwf : wellFormed ps) :
    ∃ target, resolveFromAgent ps (buildGraph ps) messages =
      Except.ok target := by
  unfold resolveFromAgent
  rcases routeFromAgent_cases ps messages with hend | hany
  · refine ⟨"__end__", ?_⟩
    rw [hend]
    simp [resolveConditional, buildGraph, List.lookup]
  · have hmem := enabledName_mem_toolNodes hwf hany
    by_cases hre : routeFromAgent ps messages = "__end__"
    · refine ⟨"__end__", ?_⟩
      rw [hre]
      simp [resolveConditional, buildGraph, List.lookup]
    · refine ⟨routeFromAgent ps messages, ?_⟩
      have hb : (routeFromAgent ps messages == "__end__") = false :=
        beq_eq_false_iff_ne.mpr hre
      simp only [resolveConditional, buildGraph, List.lookup, hb]
      rw [lookup_selfmap_of_mem _ _ hmem]

/-- C1 (witness): the routing-totality theorem at the concrete registry
and transcript of the counterexample. -/
theorem c1_routing_total_witness :
    wellFormed exSearch ∧
    (∃ target, resolveFromAgent exSearch (buildGraph exSearch) exMsgsBogus =
      Except.ok target) :=
  ⟨by decide, c1_routing_total exSearch exMsgsBogus (by decide)⟩

/-! ## C2: routing a matching tool call -/

/-- C2 (counterexample): the last assistant message carries a
`toolCalls` entry naming the enabled plugin `search`, but in second
position; the route function examines only the first entry and returns
the terminal marker instead of the tool's node name. -/
theorem c2_route_second_call_counterexample :
    exMsgsTwoCalls.getLast? = some exTwoCalls ∧
    exTwoCalls.role = Role.assistant ∧
    "search" ∈ exTwoCalls.toolCalls.map ToolCall.name ∧
    ((getEnabledPlugins exSearch).any (fun p => p.name == "search")) = true ∧
    routeFromAgent exSearch exMsgsTwoCalls = "__end__" := by
  decide

/-- C2 (amended): for every state whose latest message is an assistant
message whose first `toolCalls` entry names a currently enabled plugin,
the route function returns that tool's node name, and every enabled
tool node has an unconditional edge back to the agent node. -/
theorem c2_route_first_enabled_tool {α : Type} (ps : PluginSystem α)
    (messages : List Message) (m : Message) (tc : ToolCall)
    (rest : List ToolCall) (hL : messages.getLast? = some m)
    (hrole : m.role = Role.assistant) (htc : m.toolCalls = tc :: rest)
    (hany :
      ((getEnabledPlugins ps).any (fun p => p.name == tc.name)) = true) :
    routeFromAgent ps messages = tc.name ∧
    ∀ n ∈ (getEnabledToolNodes ps).map Prod.fst,
      (n, "agent") ∈ (buildGraph ps).edges := by
  constructor
  · obtain ⟨role, content, tcs, tcid⟩ := m
    subst hrole htc
    unfold routeFromAgent
    rw [hL]
    simp [hany]
  · intro n hn
    rw [List.mem_map] at hn
    obtain ⟨kv, hkv, hkv1⟩ := hn
    show (n, "agent") ∈ ("__start__", "agent") ::
      (getEnabledToolNodes ps).map (fun kv => (kv.1, "agent"))
    exact List.mem_cons_of_mem _
      (List.mem_map.mpr ⟨kv, hkv, by rw [hkv1]⟩)

/-- C2 (witness): the amended routing theorem at a transcript whose last
assistant message's first tool call names the enabled `search`. -/
theorem c2_route_first_enabled_tool_witness :
    exMsgsSearch.getLast? = some exSearchCall ∧
    exSearchCall.role = Role.assistant ∧
    exSearchCall.toolCalls = ⟨"call_1", "search", ""⟩ :: [] ∧
    ((getEnabledPlugins exSearch).any (fun p => p.name == "search")) = true ∧
    (routeFromAgent exSearch exMsgsSearch = "search" ∧
     ∀ n ∈ (getEnabledToolNodes exSearch).map Prod.fst,
       (n, "agent") ∈ (buildGraph exSearch).edges) :=
  ⟨by decide, by decide, by decide, by decide,
    c2_route_first_enabled_tool exSearch exMsgsSearch exSearchCall
      ⟨"call_1", "search", ""⟩ [] (by decide) (by decide) (by decide)
      (by decide)⟩

/-! ## C4: terminal transitions and the turn-count threshold -/

/-- C4 (counterexample): a transcript with twelve assistant messages —
strictly beyond the turn-count threshold of 10 — whose last message
requests the enabled tool is routed to the tool, not to the terminal
marker: the threshold does not force termination when a matching tool
call is present (and it is a hardcoded constant, not configurable). -/
theorem c4_threshold_not_forcing_counterexample :
    ((exMsgsMany.filter (fun m => m.isAssistant)).length > 10) ∧
    routeFromAgent exSearch exMsgsMany = "search" ∧
    routeFromAgent exSearch exMsgsMany ≠ "__end__" := by
  decide

/-- C4 (amended): whenever the latest message has no tool calls, is not
an assistant message, or its first tool call matches no enabled plugin,
the route function returns the terminal marker; the turn-count check is
reached only in that case and both of its branches return the terminal
marker (the hardcoded threshold of 10 affects only logging), while the
engine's hard recursion limit is configured to 100 at compile. -/
theorem c4_route_terminal_without_toolcall {α : Type} (ps : PluginSystem α)
    (messages : List Message)
    (h : lastHasEnabledToolCall ps messages = false) :
    routeFromAgent ps messages = "__end__" ∧
    routeFromAgentEnd messages = "__end__" ∧
    (buildGraph ps).recursionLimit = 100 := by
  refine ⟨?_, routeFromAgentEnd_eq messages, rfl⟩
  unfold routeFromAgent
  unfold lastHasEnabledToolCall at h
  cases hL : messages.getLast? with
  | none => exact routeFromAgentEnd_eq messages
  | some m =>
    rw [hL] at h
    obtain ⟨role, content, tcs, tcid⟩ := m
    cases role <;> cases tcs <;>
      try exact routeFromAgentEnd_eq messages
    next tc rest =>
      have h2 : ((getEnabledPlugins ps).any
          (fun p => p.name == tc.name)) = false := h
      simp [h2, routeFromAgentEnd_eq]

/-- C4 (witness): the amended theorem at the concrete registry and the
transcript requesting the unregistered tool. -/
theorem c4_route_terminal_without_toolcall_witness :
    lastHasEnabledToolCall exSearch exMsgsBogus = false ∧
    (routeFromAgent exSearch exMsgsBogus = "__end__" ∧
     routeFromAgentEnd exMsgsBogus = "__end__" ∧
     (buildGraph exSearch).recursionLimit = 100) :=
  ⟨by decide,
    c4_route_terminal_without_toolcall exSearch exMsgsBogus (by decide)⟩

/-! ## C3: unregistration and compiled-graph immutability -/

/-- C3: `unregisterPlugin` returns `true` exactly when the name was
registered; afterwards `enabledToolNodes()` no longer contains the name
and a fresh compile omits the tool's node, while the graph compiled from
the pre-unregistration registry still contains it (compiled topology
derives only from the registry snapshot it was built from). -/
theorem c3_unregister_removes_tool_node {α : Type} (ps : PluginSystem α)
    (name : String) (hname : name ≠ "agent") :
    (unregisterPlugin ps name).2 = hasKey ps.plugins name ∧
    (name ∈ (getEnabledToolNodes ps).map Prod.fst →
      name ∈ (buildGraph ps).nodes) ∧
    name ∉
      (getEnabledToolNodes (unregisterPlugin ps name).1).map Prod.fst ∧
    name ∉ (buildGraph (unregisterPlugin ps name).1).nodes := by
  have h3 : name ∉
      (getEnabledToolNodes (unregisterPlugin ps name).1).map Prod.fst := by
    intro hmem
    rw [List.mem_map] at hmem
    obtain ⟨kv, hkv, hkv1⟩ := hmem
    unfold getEnabledToolNodes at hkv
    rw [List.mem_filter] at hkv
    by_cases h : hasKey ps.plugins name = true
    · have hkv2 := hkv.1
      simp only [unregisterPlugin, if_pos h] at hkv2
      unfold delKey at hkv2
      rw [List.mem_filter] at hkv2
      have hfalse := hkv2.2
      rw [hkv1] at hfalse
      simp at hfalse
    · have hlk := hkv.2
      simp only [unregisterPlugin, if_neg h] at hlk
      rw [hkv1] at hlk
      rw [Bool.not_eq_true] at h
      rw [lookup_eq_none_of_hasKey_false ps.plugins name h] at hlk
      simp at hlk
  refine ⟨?_, ?_, h3, ?_⟩
  · by_cases h : hasKey ps.plugins name = true <;>
      simp [unregisterPlugin, h]
  · intro hmem
    show name ∈ "agent" :: (getEnabledToolNodes ps).map Prod.fst
    exact List.mem_cons_of_mem _ hmem
  · intro hmem
    have hmem2 : name ∈ "agent" ::
        (getEnabledToolNodes (unregisterPlugin ps name).1).map Prod.fst :=
      hmem
    rcases List.mem_cons.mp hmem2 with heq | htail
    · exact hname heq
    · exact h3 htail

/-- C3 (witness): unregistering `search` from the one-plugin registry. -/
theorem c3_unregister_removes_tool_node_witness :
    ("search" : String) ≠ "agent" ∧
    ((unregisterPlugin exSearch "search").2 =
        hasKey exSearch.plugins "search" ∧
     ("search" ∈ (getEnabledToolNodes exSearch).map Prod.fst →
       "search" ∈ (buildGraph exSearch).nodes) ∧
     "search" ∉
       (getEnabledToolNodes (unregisterPlugin exSearch "search").1).map
         Prod.fst ∧
     "search" ∉ (buildGraph (unregisterPlugin exSearch "search").1).nodes) :=
  ⟨by decide, c3_unregister_removes_tool_node exSearch "search" (by decide)⟩

/-! ## C5: reducer associativity -/

/-- C5: the reducer's merge is associative over sequential application —
merging `partialA` then `partialB` yields the same `messages` channel as
merging once with the combined update whose messages are
`partialA.messages ++ partialB.messages`. -/
theorem c5_merge_assoc (s : RunState) (a b : StateUpdate) :
    (merge (merge s a) b).messages =
      (merge s
        ⟨a.messages ++ b.messages, a.channels ++ b.channels⟩).messages := by
  simp [merge, List.append_assoc]

/-! ## C6: idempotent overwrite on re-registration -/

/-- C6: `registerPlugin` on an existing name succeeds: the warning flag
fires exactly when the name already exists (never an error — the
operation is total), the entry is overwritten, and the overwrite is
idempotent: registering the same plugin again leaves the registry
unchanged and merely warns. -/
theorem c6_register_idempotent_overwrite {α : Type} (ps : PluginSystem α)
    (name : String) (tool : α) (description : String) :
    (registerPlugin ps name tool description).2 = hasKey ps.plugins name ∧
    List.lookup name (registerPlugin ps name tool description).1.plugins =
      some ⟨tool, description, true⟩ ∧
    registerPlugin (registerPlugin ps name tool description).1 name tool
        description =
      ((registerPlugin ps name tool description).1, true) := by
  refine ⟨rfl, lookup_setKey_self _ _ _, ?_⟩
  simp [registerPlugin, setKey_setKey, hasKey_setKey_self]

/-! ## C7: enabled tools in registration order -/

/-- C7: `enabledTools()` returns the tools of the currently enabled
plugins in registration order: the enabled names are a subsequence of
the registered names, and in the Scenario D registry (`search` enabled,
`calc` disabled) the result is `[search-tool]`, becoming
`[search-tool, calc-tool]` after `setEnabled("calc", true)`. -/
theorem c7_enabled_tools_order {α : Type} (ps : PluginSystem α)
    (t1 t2 : α) (d1 d2 : String) :
    getEnabledTools ps =
      (ps.plugins.filter (fun kv => kv.2.enabled)).map
        (fun kv => kv.2.tool) ∧
    ((getEnabledPlugins ps).map EnabledPlugin.name).Sublist
      (ps.plugins.map Prod.fst) ∧
    getEnabledTools (setPluginEnabled
      ((registerPlugin ((registerPlugin (PluginSystem.empty α) "search" t1
        d1).1) "calc" t2 d2).1) "calc" false).1 = [t1] ∧
    getEnabledTools (setPluginEnabled (setPluginEnabled
      ((registerPlugin ((registerPlugin (PluginSystem.empty α) "search" t1
        d1).1) "calc" t2 d2).1) "calc" false).1 "calc" true).1 =
      [t1, t2] := by
  refine ⟨?_, ?_, rfl, rfl⟩
  · unfold getEnabledTools getEnabledPlugins
    rw [List.map_map]
    rfl
  · unfold getEnabledPlugins
    rw [List.map_map]
    exact (List.filter_sublist ps.plugins).map Prod.fst

/-! ## C8: setEnabled on unknown names -/

/-- C8: `setPluginEnabled` for a name that is not registered returns
`false`, raises nothing, and leaves the registry unchanged. -/
theorem c8_setEnabled_unknown_silent {α : Type} (ps : PluginSystem α)
    (name : String) (flag : Bool)
    (h : hasKey ps.plugins name = false) :
    setPluginEnabled ps name flag = (ps, false) := by
  unfold setPluginEnabled
  rw [h]
  simp

/-- C8 (witness): probing the unknown name `calc`. -/
theorem c8_setEnabled_unknown_silent_witness :
    hasKey exSearch.plugins "calc" = false ∧
    setPluginEnabled exSearch "calc" true = (exSearch, false) :=
  ⟨by decide, c8_setEnabled_unknown_silent exSearch "calc" true (by decide)⟩

/-! ## C10: registration always enables -/

/-- C10: immediately after `registerPlugin` the plugin's entry has
`enabled := true`; in particular re-registering a plugin previously
disabled through `setPluginEnabled(name, false)` silently re-enables
it. -/
theorem c10_register_enables {α : Type} (ps : PluginSystem α)
    (name : String) (tool : α) (description : String) :
    List.lookup name (registerPlugin ps name tool description).1.plugins =
      some ⟨tool, description, true⟩ ∧
    List.lookup name (registerPlugin (setPluginEnabled ps name false).1
        name tool description).1.plugins =
      some ⟨tool, description, true⟩ :=
  ⟨lookup_setKey_self _ _ _, lookup_setKey_self _ _ _⟩

/-! ## C9: the rendered tool-description text -/

theorem intercalate_go_eq (sep : String) :
    ∀ (l : List String) (acc : String),
      String.intercalate.go acc sep l =
        l.foldl (fun acc y => acc ++ sep ++ y) acc := by
  intro l
  induction l with
  | nil => intro acc; rfl
  | cons a as ih =>
    intro acc
    rw [List.foldl_cons]
    exact ih (acc ++ sep ++ a)

theorem jsJoin_eq_intercalate (sep : String) :
    ∀ l : List String, jsJoin sep l = String.intercalate sep l
  | [] => rfl
  | a :: as => (intercalate_go_eq sep as a).symm

theorem findFirst_splice (pat : List Char) :
    ∀ (pre post : List Char), pat ≠ [] →
      noHitBefore pat (pat ++ post) pre = true →
      findFirst pat (pre ++ (pat ++ post)) = some (pre, post) := by
  intro pre
  induction pre with
  | nil =>
    intro post hpat _
    cases pat with
    | nil => exact absurd rfl hpat
    | cons c pt =>
      show findFirst (c :: pt) (c :: (pt ++ post)) = some ([], post)
      unfold findFirst
      rw [if_pos (List.isPrefixOf_iff_prefix.mpr
        (by exact List.prefix_append (c :: pt) post))]
      show some (([] : List Char),
        ((c :: pt) ++ post).drop (c :: pt).length) = some ([], post)
      rw [List.drop_left]
  | cons c pre ih =>
    intro post hpat hpre
    simp only [noHitBefore, Bool.and_eq_true, Bool.not_eq_true'] at hpre
    show findFirst pat (c :: (pre ++ (pat ++ post))) = some (c :: pre, post)
    unfold findFirst
    rw [if_neg (by simp [hpre.1])]
    rw [ih post hpat hpre.2]

theorem getSubstitution_id (matched before after : List Char) :
    ∀ repl : List Char, hasDollarPattern repl = false →
      getSubstitution matched before after repl = repl
  | [], _ => rfl
  | [c], _ => by
    by_cases hc : (c == dollarChar) = true
    · unfold getSubstitution
      rw [if_pos hc]
    · unfold getSubstitution
      rw [if_neg hc]
      rfl
  | c :: d :: rest2, h => by
    simp only [hasDollarPattern, Bool.or_eq_false_iff] at h
    obtain ⟨hpair, hrest⟩ := h
    by_cases hc : (c == dollarChar) = true
    · rw [hc, Bool.true_and] at hpair
      unfold isDollarSpecial at hpair
      rw [Bool.or_eq_false_iff, Bool.or_eq_false_iff,
        Bool.or_eq_false_iff] at hpair
      obtain ⟨⟨⟨hd1, hd2⟩, hd3⟩, hd4⟩ := hpair
      have hrest2 : hasDollarPattern rest2 = false := by
        cases rest2 with
        | nil => rfl
        | cons e r3 =>
          simp only [hasDollarPattern, Bool.or_eq_false_iff] at hrest
          exact hrest.2
      unfold getSubstitution
      rw [if_pos hc]
      show (if (d == dollarChar) = true then
          dollarChar :: getSubstitution matched before after rest2
        else if (d == ampChar) = true then
          matched ++ getSubstitution matched before after rest2
        else if (d == backquoteChar) = true then
          before ++ getSubstitution matched before after rest2
        else if (d == quoteChar) = true then
          after ++ getSubstitution matched before after rest2
        else c :: d :: getSubstitution matched before after rest2) =
        c :: d :: rest2
      rw [if_neg (by simp [hd1]), if_neg (by simp [hd2]),
        if_neg (by simp [hd3]), if_neg (by simp [hd4]),
        getSubstitution_id matched before after rest2 hrest2]
    · unfold getSubstitution
      rw [if_neg hc,
        getSubstitution_id matched before after (d :: rest2) hrest]

set_option maxRecDepth 8000 in
/-- C9 (counterexample): JavaScript replace applies dollar-pattern
substitution to the replacement string, so a plugin description
containing a doubled dollar is not reproduced exactly: the doubled
dollar collapses to a single one in the substituted prompt, which
therefore differs from the prompt built with the literal description
lines. -/
theorem c9_dollar_pattern_counterexample :
    buildToolDescriptions exDollar = "- search: costs $$ per call" ∧
    getUpdatedSystemPrompt exDollar getDefaultSystemPrompt =
      defaultPromptPre ++ "- search: costs $ per call" ++
        defaultPromptPost ∧
    getUpdatedSystemPrompt exDollar getDefaultSystemPrompt ≠
      defaultPromptPre ++ buildToolDescriptions exDollar ++
        defaultPromptPost :=
  ⟨by decide, by decide, by decide⟩

set_option maxRecDepth 8000 in
/-- C9 (amended): provided the rendered description text contains none
of the dollar substitution patterns (doubled dollar, dollar-ampersand,
dollar-backquote, dollar-quote), the text substituted for the
`\x7btool_descriptions\x7d` placeholder is exactly the
`- name: description` lines of the enabled plugins joined by a single
newline: the source rendering agrees with the spec-worded rendering,
and substituting into the default system prompt yields the prompt's
prefix, then exactly that text, then its suffix. -/
theorem c9_tool_descriptions_rendering {α : Type} (ps : PluginSystem α)
    (h : hasDollarPattern (buildToolDescriptions ps).data = false) :
    buildToolDescriptions ps = specToolDescriptionText ps ∧
    getUpdatedSystemPrompt ps getDefaultSystemPrompt =
      defaultPromptPre ++ buildToolDescriptions ps ++ defaultPromptPost := by
  constructor
  · exact jsJoin_eq_intercalate "\n" _
  · unfold getUpdatedSystemPrompt jsReplaceFirst
    have hsplit : getDefaultSystemPrompt.data =
        defaultPromptPre.data ++
          (("\x7btool_descriptions\x7d" : String).data ++
            defaultPromptPost.data) := by decide
    rw [hsplit, findFirst_splice _ _ _ (by decide) (by decide)]
    show String.mk (defaultPromptPre.data ++
        (getSubstitution ("\x7btool_descriptions\x7d" : String).data
          defaultPromptPre.data defaultPromptPost.data
          (buildToolDescriptions ps).data ++ defaultPromptPost.data)) = _
    rw [getSubstitution_id _ _ _ _ h]
    exact (String.ext (by
      simp only [String.data_append, List.append_assoc])).symm

/-- C9 (witness): the amended theorem at the concrete registry whose
description contains no dollar pattern. -/
theorem c9_tool_descriptions_rendering_witness :
    hasDollarPattern (buildToolDescriptions exSearch).data = false ∧
    (buildToolDescriptions exSearch = specToolDescriptionText exSearch ∧
     getUpdatedSystemPrompt exSearch getDefaultSystemPrompt =
       defaultPromptPre ++ buildToolDescriptions exSearch ++
         defaultPromptPost) :=
  ⟨by decide, c9_tool_descriptions_rendering exSearch (by decide)⟩

end PluginDemo
